import Mathlib

/-!
Verification of the `english-time-tenses` web page renderer.

The page (src/app.js and the unnamed variant src/unnamed/part_000) loads a
JSON dataset of English tenses and renders an HTML table, with a toggle
between active and passive voice.  This file gives a shallow embedding of
that code: the JSON values become Lean structures, DOM trees become an
inductive `Node` type, strings are `List Char`, and the imperative
DOM-building functions become pure functions producing `Node` values.
Elements whose content is assigned through `innerHTML` are embedded as
`Node.rawElem` carrying the HTML string; `textOfHtml` models how a browser
extracts the displayed text of such a fragment (tags skipped, the five
entities produced by `escapeHtml` decoded), and `parseFlatF` models how a
browser parses the flat, one-level fragments this application generates.
-/

namespace TimeTenses

/-- The string model used throughout: JS strings as lists of characters. -/
abbrev Str := List Char

/-- The apostrophe character, written by code point. -/
def apos : Char := Char.ofNat 39

/-- One pass of JS `String.prototype.replace` with a global single-character
pattern: every occurrence of `needle` is replaced by `repl`, left to right,
replacements not rescanned. -/
def replaceAll (needle : Char) (repl : Str) : Str → Str
  | [] => []
  | c :: cs => (if c = needle then repl else [c]) ++ replaceAll needle repl cs

/-- `escapeHtml` from src/app.js lines 181-188 (identical in part_000 lines
191-198): five sequential global replacements. -/
def escapeHtml (s : Str) : Str :=
  replaceAll apos "&#039;".data
    (replaceAll '"' "&quot;".data
      (replaceAll '>' "&gt;".data
        (replaceAll '<' "&lt;".data
          (replaceAll '&' "&amp;".data s))))

/-- Per-character description of what `escapeHtml` does: each of the five
HTML-special characters goes to its entity, everything else is kept. -/
def escChar (c : Char) : Str :=
  if c = '&' then "&amp;".data
  else if c = '<' then "&lt;".data
  else if c = '>' then "&gt;".data
  else if c = '"' then "&quot;".data
  else if c = apos then "&#039;".data
  else [c]

theorem replaceAll_append (needle : Char) (repl : Str) (a b : Str) :
    replaceAll needle repl (a ++ b) =
      replaceAll needle repl a ++ replaceAll needle repl b := by
  induction a with
  | nil => rfl
  | cons c cs ih => simp [replaceAll, ih]

theorem escapeHtml_append (a b : Str) :
    escapeHtml (a ++ b) = escapeHtml a ++ escapeHtml b := by
  simp [escapeHtml, replaceAll_append]

theorem escapeHtml_single (c : Char) : escapeHtml [c] = escChar c := by
  by_cases h1 : c = '&'
  · subst h1; rfl
  · by_cases h2 : c = '<'
    · subst h2; rfl
    · by_cases h3 : c = '>'
      · subst h3; rfl
      · by_cases h4 : c = '"'
        · subst h4; rfl
        · by_cases h5 : c = apos
          · subst h5; rfl
          · simp [escapeHtml, escChar, replaceAll, h1, h2, h3, h4, h5]

/-- `escapeHtml` is exactly the per-character entity substitution. -/
theorem escapeHtml_eq_join (s : Str) :
    escapeHtml s = (s.map escChar).flatten := by
  induction s with
  | nil => rfl
  | cons c cs ih =>
    have : (c :: cs) = [c] ++ cs := rfl
    rw [this, escapeHtml_append, escapeHtml_single, ih]
    simp

/-- A character is "safe" when it is not one of the raw HTML-special
characters `<`, `>`, `"`, `'` (a raw `&` also never survives, it only
occurs as the head of an emitted entity). -/
def safeChar (c : Char) : Bool :=
  !(c = '<' || c = '>' || c = '"' || c = apos)

theorem escChar_safe (c : Char) : (escChar c).all safeChar = true := by
  by_cases h1 : c = '&'
  · subst h1; decide
  · by_cases h2 : c = '<'
    · subst h2; decide
    · by_cases h3 : c = '>'
      · subst h3; decide
      · by_cases h4 : c = '"'
        · subst h4; decide
        · by_cases h5 : c = apos
          · subst h5; decide
          · simp [escChar, h1, h2, h3, h4, h5, safeChar]

theorem escapeHtml_all_safe (s : Str) : (escapeHtml s).all safeChar = true := by
  rw [escapeHtml_eq_join]
  induction s with
  | nil => rfl
  | cons c cs ih =>
    simp only [List.map_cons, List.flatten_cons, List.all_append]
    rw [escChar_safe, ih]
    rfl

/-! ## The dataset model (shape of time-tenses.json as read by the code) -/

/-- A sentence structure: `{ type, formula }` as consumed by `indexByType`
and `renderFormula`.  `formula` is optional (`!entry.formula` also treats
the empty string as absent, hence `Option Str` plus an emptiness test). -/
structure Structure where
  type : String
  formula : Option Str
deriving DecidableEq, Repr

/-- The per-voice map `aspect.structures`: each voice key may be absent. -/
structure VoiceStructures where
  active : Option (List Structure)
  passive : Option (List Structure)
deriving DecidableEq, Repr

/-- The two values of `state.voice`. -/
inductive Voice where
  | active
  | passive
deriving DecidableEq, Repr

/-- `structures[voiceKey]` lookup. -/
def VoiceStructures.get : VoiceStructures → Voice → Option (List Structure)
  | m, .active => m.active
  | m, .passive => m.passive

/-- One aspect record of a tense. -/
structure Aspect where
  name : String
  description : Option Str
  markers : Option (List Str)
  structures : Option VoiceStructures
deriving DecidableEq, Repr

/-- One tense record: display name plus aspect list. -/
structure Tense where
  time : Str
  aspects : List Aspect
deriving DecidableEq, Repr

/-- The whole dataset. -/
structure Dataset where
  tenses : List Tense
deriving DecidableEq, Repr

/-- `(aspect.structures && aspect.structures[voiceKey]) || []` from
renderCellContent line 137 of both sources. -/
def voiceStructures (a : Aspect) (voiceKey : Voice) : List Structure :=
  match a.structures with
  | none => []
  | some m => (m.get voiceKey).getD []

/-! ## The DOM model -/

/-- A DOM node as built by the code: an element with children (built by
`createElement`/`appendChild`/`textContent`), an element whose content was
assigned as an `innerHTML` string, or a text node. -/
inductive Node where
  | elem (tag className : String) (children : List Node)
  | rawElem (tag className : String) (html : Str)
  | textNode (s : Str)

/-- The `<span class="muted">—</span>` placeholder element built with
`createElement` (renderCellContent lines 123-126, renderMarkers 172-176). -/
def mutedSpan : Node := .elem "span" "muted" [.textNode "—".data]

/-- The same placeholder as an HTML string (renderFormula line 113). -/
def mutedHtml : Str := "<span class=\"muted\">—</span>".data

/-! ## The rendering functions (src/app.js lines 67-179, identical in
part_000 except for the time cell) -/

/-- `indexByType` (lines 104-110): a JS object built by
`map[s.type] = s` over the list, embedded as the resulting lookup
function.  A later entry with the same `type` overwrites an earlier one. -/
def indexByType (structures : List Structure) : String → Option Structure :=
  structures.foldl (fun m s => fun k => if k = s.type then some s else m k)
    (fun _ => none)

/-- The `!entry || !entry.formula` test of renderFormula line 113
(JS falsiness: absent entry, absent formula, or empty formula string). -/
def formulaAbsent : Option Structure → Bool
  | none => true
  | some e =>
    match e.formula with
    | none => true
    | some f => f.isEmpty

/-- `renderFormula` (lines 112-116): an HTML string, either the muted
placeholder or a formula `div` holding the escaped formula text. -/
def renderFormula (entry : Option Structure) (type : String) : Str :=
  match entry with
  | none => mutedHtml
  | some e =>
    match e.formula with
    | none => mutedHtml
    | some f =>
      if f.isEmpty then mutedHtml
      else
        let typeClass := if type = "" then "" else " formula--" ++ type
        ("<div class=\"formula" ++ typeClass ++ "\">").data
          ++ escapeHtml f ++ "</div>".data

/-- `renderMarkers` (lines 163-179): a `div.markers` with one chip per
marker, or the muted placeholder when the list is empty. -/
def renderMarkers (markers : List Str) : Node :=
  .elem "div" "markers"
    ((markers.map fun m => Node.elem "span" "marker-chip" [.textNode m])
      ++ (if markers.length = 0 then [mutedSpan] else []))

/-- `renderCellContent` (lines 118-161, identical in both sources).  The
wrapper `div.cell-content` holds the optional description, three
`div.cell-block`s whose content is assigned via `innerHTML` from
`renderFormula`, and the markers block. -/
def renderCellContent (aspect : Option Aspect) (voiceKey : Voice) : Node :=
  match aspect with
  | none => .elem "div" "cell-content" [mutedSpan]
  | some a =>
    let descPart : List Node :=
      match a.description with
      | none => []
      | some d => if d.isEmpty then [] else [.elem "div" "cell-desc" [.textNode d]]
    let byType := indexByType (voiceStructures a voiceKey)
    .elem "div" "cell-content" (descPart ++
      [ .rawElem "div" "cell-block" (renderFormula (byType "Affirmative") "aff"),
        .rawElem "div" "cell-block" (renderFormula (byType "Negative") "neg"),
        .rawElem "div" "cell-block" (renderFormula (byType "Question") "q"),
        .elem "div" "cell-block" [renderMarkers (a.markers.getD [])] ])

/-- `columnOrder` (line 76 of both sources). -/
def columnOrder : List String := ["Simple", "Continuous", "Perfect", "Perfect Continuous"]

/-- The `nameToAspect` JS object built inside render (lines 87-90):
`nameToAspect[aspect.name] = aspect`, embedded as its lookup function. -/
def nameToAspect (aspects : List Aspect) : String → Option Aspect :=
  aspects.foldl (fun m a => fun k => if k = a.name then some a else m k)
    (fun _ => none)

namespace App

/-- The HTML string assigned to the time cell in src/app.js line 83:
`'<div class="time-name">' + escapeHtml(tense.time) + '</div>'`. -/
def timeCellHtml (time : Str) : Str :=
  "<div class=\"time-name\">".data ++ escapeHtml time ++ "</div>".data

/-- One `<tr>` of src/app.js render (lines 78-101): the time `<td>` filled
via `innerHTML`, then one `<td>` per entry of `columnOrder`. -/
def renderRow (voiceKey : Voice) (tense : Tense) : Node :=
  .elem "tr" ""
    (.rawElem "td" "" (timeCellHtml tense.time) ::
      columnOrder.map fun aspectName =>
        Node.elem "td" "" [renderCellContent (nameToAspect tense.aspects aspectName) voiceKey])

/-- `render` of src/app.js (lines 67-102), as the list of rows appended to
the emptied `tbody`: one row per element of `data.tenses`. -/
def render (data : Dataset) (voiceKey : Voice) : List Node :=
  data.tenses.map (renderRow voiceKey)

end App

namespace Variant

/-- `renderTimeCell` of src/unnamed/part_000 (lines 163-171): a
`div.cell-content` wrapping a `div.time-name` whose `textContent` is the
tense name. -/
def renderTimeCell (timeName : Str) : Node :=
  .elem "div" "cell-content" [.elem "div" "time-name" [.textNode timeName]]

/-- One `<tr>` of part_000 render (lines 78-101): the time `<td>` gets
`renderTimeCell` appended, the aspect cells are as in src/app.js. -/
def renderRow (voiceKey : Voice) (tense : Tense) : Node :=
  .elem "tr" ""
    (.elem "td" "" [renderTimeCell tense.time] ::
      columnOrder.map fun aspectName =>
        Node.elem "td" "" [renderCellContent (nameToAspect tense.aspects aspectName) voiceKey])

/-- `render` of src/unnamed/part_000 (lines 67-102). -/
def render (data : Dataset) (voiceKey : Voice) : List Node :=
  data.tenses.map (renderRow voiceKey)

end Variant

/-! ## Browser model: displayed text of an innerHTML fragment

The browser parses an `innerHTML` string and the displayed text is the
concatenation of its text pieces with entities decoded and tags dropped.
`textOfHtmlF` implements that for the flat fragments this code produces;
the fuel argument (one unit per step, every step consumes at least one
character) makes the function structurally recursive. -/

def textOfHtmlF : Nat → Str → Str
  | 0, _ => []
  | _, [] => []
  | fuel + 1, c :: cs =>
    if c = '<' then textOfHtmlF fuel ((cs.dropWhile fun d => !(d = '>')).drop 1)
    else if c = '&' then
      if cs.take 4 = "amp;".data then '&' :: textOfHtmlF fuel (cs.drop 4)
      else if cs.take 3 = "lt;".data then '<' :: textOfHtmlF fuel (cs.drop 3)
      else if cs.take 3 = "gt;".data then '>' :: textOfHtmlF fuel (cs.drop 3)
      else if cs.take 5 = "quot;".data then '"' :: textOfHtmlF fuel (cs.drop 5)
      else if cs.take 5 = "#039;".data then apos :: textOfHtmlF fuel (cs.drop 5)
      else c :: textOfHtmlF fuel cs
    else c :: textOfHtmlF fuel cs

/-- Displayed text of an HTML fragment. -/
def textOfHtml (s : Str) : Str := textOfHtmlF s.length s

theorem length_dropWhile_le (l : Str) (p : Char → Bool) :
    (l.dropWhile p).length ≤ l.length := by
  induction l with
  | nil => simp
  | cons a as ih =>
    rw [List.dropWhile_cons]
    split
    · exact le_trans ih (by simp)
    · simp

/-- The fuel is irrelevant as long as it covers the length of the input. -/
theorem textOfHtmlF_congr :
    ∀ (f₁ f₂ : Nat) (s : Str), s.length ≤ f₁ → s.length ≤ f₂ →
      textOfHtmlF f₁ s = textOfHtmlF f₂ s := by
  intro f₁
  induction f₁ with
  | zero =>
    intro f₂ s h₁ _
    have hs : s = [] := List.length_eq_zero.mp (Nat.le_zero.mp h₁)
    subst hs
    cases f₂ <;> rfl
  | succ f ih =>
    intro f₂ s h₁ h₂
    cases s with
    | nil => cases f₂ <;> rfl
    | cons c cs =>
      cases f₂ with
      | zero => exact absurd h₂ (by simp)
      | succ f₂' =>
        have hcs₁ : cs.length ≤ f := Nat.le_of_succ_le_succ h₁
        have hcs₂ : cs.length ≤ f₂' := Nat.le_of_succ_le_succ h₂
        have hskip : ((cs.dropWhile fun d => !(d = '>')).drop 1).length ≤ cs.length := by
          calc ((cs.dropWhile fun d => !(d = '>')).drop 1).length
              ≤ (cs.dropWhile fun d => !(d = '>')).length := by
                simp [List.length_drop]
            _ ≤ cs.length := length_dropWhile_le _ _
        have hdrop : ∀ n : Nat, (cs.drop n).length ≤ cs.length := by
          intro n; simp [List.length_drop]
        simp only [textOfHtmlF]
        split
        · exact ih f₂' _ (le_trans hskip hcs₁) (le_trans hskip hcs₂)
        · split
          · split
            · rw [ih f₂' _ (le_trans (hdrop 4) hcs₁) (le_trans (hdrop 4) hcs₂)]
            · split
              · rw [ih f₂' _ (le_trans (hdrop 3) hcs₁) (le_trans (hdrop 3) hcs₂)]
              · split
                · rw [ih f₂' _ (le_trans (hdrop 3) hcs₁) (le_trans (hdrop 3) hcs₂)]
                · split
                  · rw [ih f₂' _ (le_trans (hdrop 5) hcs₁) (le_trans (hdrop 5) hcs₂)]
                  · split
                    · rw [ih f₂' _ (le_trans (hdrop 5) hcs₁) (le_trans (hdrop 5) hcs₂)]
                    · rw [ih f₂' _ hcs₁ hcs₂]
          · rw [ih f₂' _ hcs₁ hcs₂]

theorem textOfHtmlF_eq_textOfHtml (fuel : Nat) (s : Str) (h : s.length ≤ fuel) :
    textOfHtmlF fuel s = textOfHtml s :=
  textOfHtmlF_congr fuel s.length s h le_rfl

/-- Decoding one escaped character at the head of a fragment. -/
theorem textOfHtml_escChar (c : Char) (t : Str) :
    textOfHtml (escChar c ++ t) = c :: textOfHtml t := by
  by_cases h1 : c = '&'
  · subst h1
    show textOfHtmlF (('a' :: 'm' :: 'p' :: ';' :: t).length + 1)
      ('&' :: 'a' :: 'm' :: 'p' :: ';' :: t) = _
    simp only [textOfHtmlF, List.take, List.drop]
    rw [if_neg (by decide), if_pos (by decide), if_pos (by decide)]
    rw [textOfHtmlF_eq_textOfHtml _ t (by simp; omega)]
  · by_cases h2 : c = '<'
    · subst h2
      show textOfHtmlF (('l' :: 't' :: ';' :: t).length + 1)
        ('&' :: 'l' :: 't' :: ';' :: t) = _
      simp only [textOfHtmlF, List.take, List.drop]
      rw [if_neg (by decide), if_pos (by decide)]
      rw [if_neg (by simp), if_pos (by decide)]
      rw [textOfHtmlF_eq_textOfHtml _ t (by simp; omega)]
    · by_cases h3 : c = '>'
      · subst h3
        show textOfHtmlF (('g' :: 't' :: ';' :: t).length + 1)
          ('&' :: 'g' :: 't' :: ';' :: t) = _
        simp only [textOfHtmlF, List.take, List.drop]
        rw [if_neg (by decide), if_pos (by decide)]
        rw [if_neg (by simp), if_neg (by decide), if_pos (by decide)]
        rw [textOfHtmlF_eq_textOfHtml _ t (by simp; omega)]
      · by_cases h4 : c = '"'
        · subst h4
          show textOfHtmlF (('q' :: 'u' :: 'o' :: 't' :: ';' :: t).length + 1)
            ('&' :: 'q' :: 'u' :: 'o' :: 't' :: ';' :: t) = _
          simp only [textOfHtmlF, List.take, List.drop]
          rw [if_neg (by decide), if_pos (by decide), if_neg (by decide), if_neg (by decide),
            if_neg (by decide), if_pos (by decide)]
          rw [textOfHtmlF_eq_textOfHtml _ t (by simp; omega)]
        · by_cases h5 : c = apos
          · subst h5
            show textOfHtmlF (('#' :: '0' :: '3' :: '9' :: ';' :: t).length + 1)
              ('&' :: '#' :: '0' :: '3' :: '9' :: ';' :: t) = _
            simp only [textOfHtmlF, List.take, List.drop]
            rw [if_neg (by decide), if_pos (by decide), if_neg (by decide), if_neg (by decide),
              if_neg (by decide), if_neg (by decide), if_pos (by decide)]
            rw [textOfHtmlF_eq_textOfHtml _ t (by simp; omega)]
          · have e : escChar c ++ t = c :: t := by simp [escChar, h1, h2, h3, h4, h5]
            rw [e]
            show textOfHtmlF (t.length + 1) (c :: t) = _
            simp only [textOfHtmlF]
            rw [if_neg h2, if_neg h1, textOfHtmlF_eq_textOfHtml _ t (by omega)]

/-- An escaped string at the head of a fragment decodes to itself. -/
theorem textOfHtml_escaped (s t : Str) :
    textOfHtml ((s.map escChar).flatten ++ t) = s ++ textOfHtml t := by
  induction s with
  | nil => rfl
  | cons c cs ih =>
    simp only [List.map_cons, List.flatten_cons, List.append_assoc]
    rw [textOfHtml_escChar, ih]
    rfl

/-- A leading tag (no `>` inside) contributes no text. -/
theorem textOfHtml_tag (inner : Str) (X : Str) (h : ∀ c ∈ inner, ¬ c = '>') :
    textOfHtml ('<' :: inner ++ '>' :: X) = textOfHtml X := by
  have hdw : (inner ++ '>' :: X).dropWhile (fun d => !(d = '>')) = '>' :: X := by
    induction inner with
    | nil => simp [List.dropWhile_cons]
    | cons a as ihh =>
      have ha : ¬ a = '>' := h a (by simp)
      rw [List.cons_append, List.dropWhile_cons, if_pos (by simpa using ha)]
      exact ihh fun c hc => h c (by simp [hc])
  show textOfHtmlF ((inner ++ '>' :: X).length + 1) ('<' :: (inner ++ '>' :: X)) = _
  simp only [textOfHtmlF, if_pos rfl]
  rw [hdw]
  simp only [List.drop]
  exact textOfHtmlF_eq_textOfHtml _ X (by simp; omega)

/-! ## Browser model: displayed text of a whole DOM node -/

mutual

/-- The text a browser displays for a node: text nodes verbatim,
`innerHTML` fragments via `textOfHtml`, elements by concatenating their
children. -/
def nodeText : Node → Str
  | .textNode s => s
  | .rawElem _ _ h => textOfHtml h
  | .elem _ _ ch => nodeTextList ch

def nodeTextList : List Node → Str
  | [] => []
  | n :: ns => nodeText n ++ nodeTextList ns

end

/-! ## Browser model: parsing the flat innerHTML fragments

Every `innerHTML` string this code produces is a flat sequence of text
(with the five entities) and one-level elements of the form
`<tag class="...">text</tag>`.  `parseFlatF` parses exactly that shape,
the way a browser would; the fuel (one unit per item, every item consumes
at least one character) keeps the recursion structural. -/

/-- The `class` attribute value inside a tag: the text between the first
pair of double quotes. -/
def extractClass (inside : Str) : String :=
  String.mk (((inside.dropWhile fun c => !(c = '"')).drop 1).takeWhile fun c => !(c = '"'))

/-- The tag name: everything before the first space. -/
def tagNameOf (inside : Str) : String :=
  String.mk (inside.takeWhile fun c => !(c = ' '))

def parseFlatF : Nat → Str → List Node
  | 0, _ => []
  | _, [] => []
  | fuel + 1, c :: cs =>
    if c = '<' then
      let inside := cs.takeWhile fun d => !(d = '>')
      let after := (cs.dropWhile fun d => !(d = '>')).drop 1
      match inside with
      | '/' :: _ => parseFlatF fuel after
      | _ =>
        let content := after.takeWhile fun d => !(d = '<')
        let rest := (((after.dropWhile fun d => !(d = '<')).drop 1).dropWhile
          fun d => !(d = '>')).drop 1
        Node.elem (tagNameOf inside) (extractClass inside)
            [Node.textNode (textOfHtml content)] ::
          parseFlatF fuel rest
    else
      Node.textNode (textOfHtml ((c :: cs).takeWhile fun d => !(d = '<'))) ::
        parseFlatF fuel ((c :: cs).dropWhile fun d => !(d = '<'))

/-- Replace every `rawElem` by the element with its fragment parsed, the
way the browser materialises an `innerHTML` assignment.  The fuel bounds
the tree depth; the trees built by `render` have depth at most six, so a
fuel of eight expands them completely. -/
def expandNode : Nat → Node → Node
  | 0, n => n
  | _ + 1, .textNode s => .textNode s
  | _ + 1, .rawElem tag cls h => .elem tag cls (parseFlatF h.length h)
  | fuel + 1, .elem tag cls ch => .elem tag cls (ch.map (expandNode fuel))

/-- The DOM the browser shows for a list of rendered rows. -/
def expandRows (rows : List Node) : List Node := rows.map (expandNode 8)

/-! ## The page state machine (init, data load, voice toggle)

The mutable page state of the IIFE: `state.voice`, `state.data`, the rows
of the table `tbody`, the `hidden` flag and text of the error section, and
the two voice classes on the `.controls` element.  The DOM guards of init
(all required elements present, `tbody` present) are taken as satisfied:
they hold for the page's fixed HTML. -/

structure PageState where
  voice : Voice
  data : Option Dataset
  tbodyRows : List Node
  errorHidden : Bool
  errorText : String
  ctrlActive : Bool
  ctrlPassive : Bool

/-- The state right after the init code ran `updateToggleState()` (the
checkbox starts unchecked, so `is-active` is set and `is-passive` is not)
and before the fetch resolves.  The error section starts hidden and the
`tbody` empty, as in the page's HTML. -/
def initState : PageState :=
  { voice := .active, data := none, tbodyRows := [],
    errorHidden := true, errorText := "",
    ctrlActive := true, ctrlPassive := false }

/-- `showError` (lines 54-57 of both sources): unhide the error section
and set its text to the static prefix plus the error's message. -/
def showError (s : PageState) (msg : String) : PageState :=
  { s with errorHidden := false,
           errorText := "Ошибка загрузки данных: " ++ msg }

/-- One `fetch` request as issued: URL and cache mode. -/
structure FetchRequest where
  url : String
  cache : String
deriving DecidableEq, Repr

/-- `DATA_FILE` (line 10/11 of the sources). -/
def DATA_FILE : String := "./time-tenses.json"

/-- The response a `fetch` can produce: `ok`/`status` from the HTTP layer,
and the result of `response.json()` (a parse failure rejects with a
message). -/
structure Response where
  ok : Bool
  status : Nat
  body : Except String Dataset

/-- The environment of the single fetch: the promise either rejects
(network error, carrying its message) or resolves to a response. -/
inductive FetchEnv where
  | reject (msg : String)
  | resolve (r : Response)

/-- `loadData` (lines 59-65 of both sources), instrumented with the list
of fetch requests it issues: exactly one, for `DATA_FILE`, with
`{ cache: 'no-store' }`.  A rejected fetch propagates its message; a
non-ok response throws `HTTP <status> while fetching <DATA_FILE>`;
otherwise the result is whatever `response.json()` produced. -/
def loadData (env : FetchEnv) : List FetchRequest × Except String Dataset :=
  ([{ url := DATA_FILE, cache := "no-store" }],
   match env with
   | .reject m => .error m
   | .resolve r =>
     if !r.ok then .error ("HTTP " ++ toString r.status ++ " while fetching " ++ DATA_FILE)
     else r.body)

namespace App

/-- `render`'s effect on the page state (lines 67-102 of src/app.js):
nothing without stored data, otherwise the `tbody` is emptied and
repopulated from the dataset and current voice. -/
def doRender (s : PageState) : PageState :=
  match s.data with
  | none => s
  | some d => { s with tbodyRows := render d s.voice }

/-- The init promise chain of src/app.js lines 35-40: on success store
the dataset and render, on failure show the error. -/
def startup (env : FetchEnv) : PageState :=
  match (loadData env).2 with
  | .ok d => doRender { initState with data := some d }
  | .error e => showError initState e

/-- The `change` handler of the voice checkbox (src/app.js lines 43-47
with `updateToggleState`, lines 49-52): set the voice from the checkbox,
set the `is-active`/`is-passive` classes from it, and re-render. -/
def onToggleChange (s : PageState) (checked : Bool) : PageState :=
  doRender { s with
    voice := if checked then Voice.passive else Voice.active,
    ctrlActive := !checked,
    ctrlPassive := checked }

/-- The user events src/app.js reacts to after startup. -/
inductive Event where
  | toggleChange (checked : Bool)

def applyEvent (s : PageState) : Event → PageState
  | .toggleChange checked => onToggleChange s checked

end App

namespace Variant

/-- `render`'s effect on the page state for src/unnamed/part_000. -/
def doRender (s : PageState) : PageState :=
  match s.data with
  | none => s
  | some d => { s with tbodyRows := render d s.voice }

/-- The init promise chain of part_000 lines 38-43. -/
def startup (env : FetchEnv) : PageState :=
  match (loadData env).2 with
  | .ok d => doRender { initState with data := some d }
  | .error e => showError initState e

/-- The `click` handler of either voice button (part_000 lines 46-47 with
`updateControlsState`, lines 49-52): set the voice, set each class from a
comparison with the new voice, and re-render. -/
def onVoiceClick (s : PageState) (v : Voice) : PageState :=
  doRender { s with
    voice := v,
    ctrlActive := decide (v = Voice.active),
    ctrlPassive := decide (v = Voice.passive) }

end Variant

/-! ## Observation functions used by the theorems -/

mutual

/-- Erase the `innerHTML` content of every formula block
(`div.cell-block` filled via `innerHTML`), keeping everything else:
the part of a rendered tree that should not depend on the voice. -/
def eraseNode : Node → Node
  | .textNode s => .textNode s
  | .rawElem t c h => if c = "cell-block" then .rawElem t c [] else .rawElem t c h
  | .elem t c ch => .elem t c (eraseNodeList ch)

def eraseNodeList : List Node → List Node
  | [] => []
  | n :: ns => eraseNode n :: eraseNodeList ns

end

/-- The cells of a row after the leading time cell. -/
def cellsAfterTime : Node → List Node
  | .elem _ _ ch => ch.drop 1
  | _ => []

/-- Children of an element node (empty for the other kinds). -/
def headElemChildren : Node → List Node
  | .elem _ _ ch => ch
  | _ => []

/-- Class name of a node. -/
def classNameOf : Node → String
  | .elem _ c _ => c
  | .rawElem _ c _ => c
  | .textNode _ => ""

/-- The class of the first grandchild inside the first cell of the first
row: in an expanded rendered table this is the first `div` inside the
time `<td>`. -/
def probeClass (rows : List Node) : String :=
  classNameOf ((headElemChildren ((headElemChildren
    (rows.headD (.textNode []))).headD (.textNode []))).headD (.textNode []))

/-! ## Helper lemmas -/

/-- The time cell of src/app.js displays exactly the tense name: the
escaped `innerHTML` decodes back to the original string. -/
theorem textOfHtml_timeCellHtml (t : Str) :
    textOfHtml (App.timeCellHtml t) = t := by
  have h1 : App.timeCellHtml t =
      ('<' :: "div class=\"time-name\"".data) ++ '>' :: (escapeHtml t ++ "</div>".data) := rfl
  rw [h1, textOfHtml_tag "div class=\"time-name\"".data
    (escapeHtml t ++ "</div>".data) (by decide)]
  rw [escapeHtml_eq_join, textOfHtml_escaped]
  have h2 : textOfHtml "</div>".data = [] := rfl
  rw [h2, List.append_nil]

/-- Characterisation of `indexByType` as a last-match lookup. -/
theorem indexByType_eq_find_last (l : List Structure) (k : String) :
    indexByType l k = l.reverse.find? fun s => s.type == k := by
  induction l using List.reverseRecOn with
  | nil => rfl
  | append_singleton xs s ih =>
    have hfold : indexByType (xs ++ [s]) k =
        if k = s.type then some s else indexByType xs k := by
      unfold indexByType
      rw [List.foldl_append]
      rfl
    rw [hfold, List.reverse_append]
    simp only [List.reverse_singleton, List.singleton_append, List.find?_cons]
    by_cases h : s.type = k
    · subst h
      simp
    · rw [if_neg (fun hk => h hk.symm)]
      have hbeq : (s.type == k) = false := beq_eq_false_iff_ne.mpr h
      simp only [hbeq]
      exact ih

/-- The per-cell renderer does not depend on the voice once the formula
blocks are erased. -/
theorem eraseNode_renderCellContent (a : Option Aspect) (v v' : Voice) :
    eraseNode (renderCellContent a v) = eraseNode (renderCellContent a v') := by
  cases a with
  | none => rfl
  | some a =>
    cases ha : a.description with
    | none => simp [renderCellContent, eraseNode, eraseNodeList, ha]
    | some d =>
      by_cases hd : d.isEmpty
      · simp [renderCellContent, eraseNode, eraseNodeList, ha, hd]
      · simp [renderCellContent, eraseNode, eraseNodeList, ha, hd]

/-- Whole rows of src/app.js render, with formula blocks erased, do not
depend on the voice. -/
theorem eraseNode_renderRow_app (t : Tense) (v v' : Voice) :
    eraseNode (App.renderRow v t) = eraseNode (App.renderRow v' t) := by
  simp only [App.renderRow, eraseNode, eraseNodeList, columnOrder, List.map_cons,
    List.map_nil]
  rw [eraseNode_renderCellContent _ v v', eraseNode_renderCellContent _ v v',
    eraseNode_renderCellContent _ v v', eraseNode_renderCellContent _ v v']

/-- Same for part_000 rows. -/
theorem eraseNode_renderRow_variant (t : Tense) (v v' : Voice) :
    eraseNode (Variant.renderRow v t) = eraseNode (Variant.renderRow v' t) := by
  simp only [Variant.renderRow, eraseNode, eraseNodeList, columnOrder, List.map_cons,
    List.map_nil]
  rw [eraseNode_renderCellContent _ v v', eraseNode_renderCellContent _ v v',
    eraseNode_renderCellContent _ v v', eraseNode_renderCellContent _ v v']

/-- `doRender` touches only the table rows. -/
theorem app_doRender_data (s : PageState) : (App.doRender s).data = s.data := by
  unfold App.doRender
  cases hd : s.data with
  | none => exact hd
  | some d => rfl

theorem variant_doRender_data (s : PageState) : (Variant.doRender s).data = s.data := by
  unfold Variant.doRender
  cases hd : s.data with
  | none => exact hd
  | some d => rfl

/-- A toggle event never changes the stored dataset. -/
theorem App.applyEvent_data (s : PageState) (e : App.Event) :
    (App.applyEvent s e).data = s.data := by
  cases e with
  | toggleChange checked =>
    show (App.doRender _).data = s.data
    rw [app_doRender_data]

theorem Variant.onVoiceClick_data (s : PageState) (v : Voice) :
    (Variant.onVoiceClick s v).data = s.data := by
  show (Variant.doRender _).data = s.data
  rw [variant_doRender_data]

/-- Any sequence of toggle events preserves the stored dataset. -/
theorem App.foldl_applyEvent_data (evs : List App.Event) (s : PageState) :
    (evs.foldl App.applyEvent s).data = s.data := by
  induction evs generalizing s with
  | nil => rfl
  | cons e es ih => rw [List.foldl_cons, ih, App.applyEvent_data]

theorem Variant.foldl_onVoiceClick_data (vs : List Voice) (s : PageState) :
    (vs.foldl Variant.onVoiceClick s).data = s.data := by
  induction vs generalizing s with
  | nil => rfl
  | cons v rest ih => rw [List.foldl_cons, ih, Variant.onVoiceClick_data]

/-- A one-tense dataset with no aspects. -/
def oneTense : Dataset := { tenses := [{ time := "Present".data, aspects := [] }] }

/-- A structure list with a duplicated type, exercising the
last-one-wins behaviour of `indexByType`. -/
def dupStructures : List Structure :=
  [ { type := "Affirmative", formula := some "S + V1".data },
    { type := "Negative", formula := some "S + do not + V1".data },
    { type := "Affirmative", formula := some "S + V2".data } ]

/-- An aspect whose active and passive structures coincide. -/
def symAspect : Aspect :=
  { name := "Simple",
    description := some "habitual action".data,
    markers := some ["usually".data, "every day".data],
    structures := some
      { active := some [{ type := "Affirmative", formula := some "S + V".data }],
        passive := some [{ type := "Affirmative", formula := some "S + V".data }] } }

/-- A small full dataset: one tense, one aspect with distinct active and
passive structures. -/
def sampleDataset : Dataset :=
  { tenses :=
      [ { time := "Present".data,
          aspects :=
            [ { name := "Simple",
                description := some "habitual action".data,
                markers := some ["usually".data],
                structures := some
                  { active := some [{ type := "Affirmative", formula := some "S + V".data }],
                    passive := some [{ type := "Affirmative", formula := some "S + be + V3".data }] } } ] } ] }

/-! ## Claim theorems -/

/-- C1: for every dataset and either voice, render produces exactly one
table row per tense, and every row contains exactly four aspect cells
after the time cell, in the fixed order Simple, Continuous, Perfect,
Perfect Continuous. -/
theorem render_one_row_per_tense (d : Dataset) (v : Voice) :
    (App.render d v).length = d.tenses.length
    ∧ (Variant.render d v).length = d.tenses.length
    ∧ App.render d v = d.tenses.map (fun t => Node.elem "tr" ""
        [ Node.rawElem "td" "" (App.timeCellHtml t.time),
          Node.elem "td" "" [renderCellContent (nameToAspect t.aspects "Simple") v],
          Node.elem "td" "" [renderCellContent (nameToAspect t.aspects "Continuous") v],
          Node.elem "td" "" [renderCellContent (nameToAspect t.aspects "Perfect") v],
          Node.elem "td" "" [renderCellContent (nameToAspect t.aspects "Perfect Continuous") v] ])
    ∧ Variant.render d v = d.tenses.map (fun t => Node.elem "tr" ""
        [ Node.elem "td" "" [Variant.renderTimeCell t.time],
          Node.elem "td" "" [renderCellContent (nameToAspect t.aspects "Simple") v],
          Node.elem "td" "" [renderCellContent (nameToAspect t.aspects "Continuous") v],
          Node.elem "td" "" [renderCellContent (nameToAspect t.aspects "Perfect") v],
          Node.elem "td" "" [renderCellContent (nameToAspect t.aspects "Perfect Continuous") v] ]) := by
  refine ⟨by simp [App.render], by simp [Variant.render], ?_, ?_⟩
  · exact List.map_congr_left fun t _ => rfl
  · exact List.map_congr_left fun t _ => rfl

/-- C4: every aspect cell contains the description (when present and
non-empty), exactly three formula blocks in the order affirmative,
negative, question (each falling back to the muted placeholder when the
structure or its formula is absent), and a markers block (placeholder
when the list is empty); an absent aspect renders as a lone placeholder. -/
theorem cell_content_contract (a : Aspect) (v : Voice) :
    renderCellContent none v = Node.elem "div" "cell-content" [mutedSpan]
    ∧ renderCellContent (some a) v = Node.elem "div" "cell-content"
        ((match a.description with
          | none => []
          | some d => if d.isEmpty then []
            else [Node.elem "div" "cell-desc" [Node.textNode d]]) ++
         [ Node.rawElem "div" "cell-block"
             (renderFormula (indexByType (voiceStructures a v) "Affirmative") "aff"),
           Node.rawElem "div" "cell-block"
             (renderFormula (indexByType (voiceStructures a v) "Negative") "neg"),
           Node.rawElem "div" "cell-block"
             (renderFormula (indexByType (voiceStructures a v) "Question") "q"),
           Node.elem "div" "cell-block" [renderMarkers (a.markers.getD [])] ])
    ∧ (∀ (e : Option Structure) (t : String),
        formulaAbsent e = true → renderFormula e t = mutedHtml)
    ∧ renderMarkers [] = Node.elem "div" "markers" [mutedSpan] := by
  refine ⟨rfl, rfl, ?_, rfl⟩
  intro e t h
  cases e with
  | none => rfl
  | some e =>
    cases hf : e.formula with
    | none => simp [renderFormula, hf]
    | some f =>
      have hemp : f.isEmpty = true := by
        simpa [formulaAbsent, hf] using h
      simp [renderFormula, hf, hemp]

/-- Witness for C4 at concrete inputs: the placeholder hypothesis is
satisfied by an absent structure. -/
theorem cell_content_contract_witness :
    formulaAbsent none = true ∧ renderFormula none "aff" = mutedHtml :=
  ⟨by decide, (cell_content_contract symAspect Voice.active).2.2.1 none "aff" (by decide)⟩

/-- C9: `escapeHtml` replaces every occurrence of the five HTML-special
characters by its entity (and does nothing else), so its output contains
no raw special character from the data. -/
theorem escapeHtml_escapes_specials (s : Str) :
    escapeHtml s = (s.map escChar).flatten
    ∧ (escapeHtml s).all safeChar = true :=
  ⟨escapeHtml_eq_join s, escapeHtml_all_safe s⟩

/-- C10: `indexByType` maps each type occurring in the list to the last
structure bearing it, and no other key; with unique types, each type maps
to its unique structure. -/
theorem indexByType_last_wins (l : List Structure) (k : String) :
    indexByType l k = (l.reverse.find? fun s => s.type == k)
    ∧ (∀ s ∈ l, (∀ s' ∈ l, s'.type = s.type → s' = s) →
        indexByType l s.type = some s) := by
  refine ⟨indexByType_eq_find_last l k, ?_⟩
  intro s hs huniq
  rw [indexByType_eq_find_last]
  have hex : (l.reverse.find? fun s' => s'.type == s.type).isSome = true :=
    List.find?_isSome.mpr ⟨s, List.mem_reverse.mpr hs, by simp⟩
  obtain ⟨f, hf⟩ := Option.isSome_iff_exists.mp hex
  have hft : f.type = s.type := by
    have := List.find?_some hf
    simpa using this
  have hfm : f ∈ l := List.mem_reverse.mp (List.mem_of_find?_eq_some hf)
  rw [hf, huniq f hfm hft]

/-- Witness for C10: on a concrete list with a duplicate type, the later
entry wins; a unique type maps to its unique entry. -/
theorem indexByType_last_wins_witness :
    indexByType dupStructures "Affirmative" =
      some { type := "Affirmative", formula := some "S + V2".data }
    ∧ indexByType dupStructures "Negative" =
        some { type := "Negative", formula := some "S + do not + V1".data } := by
  refine ⟨?_, ?_⟩
  · rw [(indexByType_last_wins dupStructures "Affirmative").1]
    decide
  · exact (indexByType_last_wins dupStructures "Negative").2
      { type := "Negative", formula := some "S + do not + V1".data }
      (by decide) (by decide)

/-- `doRender` leaves voice and control classes alone. -/
theorem app_doRender_fields (s : PageState) :
    (App.doRender s).voice = s.voice
    ∧ (App.doRender s).ctrlActive = s.ctrlActive
    ∧ (App.doRender s).ctrlPassive = s.ctrlPassive := by
  unfold App.doRender
  cases hd : s.data with
  | none => exact ⟨rfl, rfl, rfl⟩
  | some d => exact ⟨rfl, rfl, rfl⟩

theorem variant_doRender_fields (s : PageState) :
    (Variant.doRender s).voice = s.voice
    ∧ (Variant.doRender s).ctrlActive = s.ctrlActive
    ∧ (Variant.doRender s).ctrlPassive = s.ctrlPassive := by
  unfold Variant.doRender
  cases hd : s.data with
  | none => exact ⟨rfl, rfl, rfl⟩
  | some d => exact ⟨rfl, rfl, rfl⟩

/-- With a stored dataset, `doRender` rebuilds the rows from it. -/
theorem app_doRender_rows_of_some (s : PageState) (d : Dataset)
    (h : s.data = some d) : (App.doRender s).tbodyRows = App.render d s.voice := by
  unfold App.doRender
  rw [h]

theorem variant_doRender_rows_of_some (s : PageState) (d : Dataset)
    (h : s.data = some d) : (Variant.doRender s).tbodyRows = Variant.render d s.voice := by
  unfold Variant.doRender
  rw [h]

/-- C2: when the fetch fails (rejection, non-success HTTP status, or JSON
parse failure), the error region is unhidden with error text and the table
body stays empty; render is a no-op without a stored dataset. -/
theorem fetch_failure_shows_error (env : FetchEnv)
    (h : (loadData env).2.isOk = false) :
    (App.startup env).errorHidden = false
    ∧ (∃ m, (App.startup env).errorText = "Ошибка загрузки данных: " ++ m)
    ∧ (App.startup env).tbodyRows = []
    ∧ (∀ s : PageState, s.data = none → App.doRender s = s) := by
  cases hl : (loadData env).2 with
  | ok d =>
    rw [hl] at h
    simp [Except.isOk, Except.toBool] at h
  | error e =>
    have hstart : App.startup env = showError initState e := by
      unfold App.startup
      rw [hl]
    refine ⟨by rw [hstart]; rfl, ⟨e, by rw [hstart]; rfl⟩, by rw [hstart]; rfl, ?_⟩
    intro s hs
    unfold App.doRender
    rw [hs]

/-- A failing environment: HTTP 404. -/
def badEnv : FetchEnv := .resolve { ok := false, status := 404, body := .error "ignored" }

/-- Witness for C2 at the concrete failing environment `badEnv`. -/
theorem fetch_failure_shows_error_witness :
    (loadData badEnv).2.isOk = false
    ∧ (App.startup badEnv).errorHidden = false
    ∧ (App.startup badEnv).tbodyRows = [] :=
  ⟨rfl, (fetch_failure_shows_error badEnv rfl).1,
    (fetch_failure_shows_error badEnv rfl).2.2.1⟩

/-- C6: the voice selector has exactly the two states active and passive;
every selection updates the control classes to match the new voice (and
not the opposite one) and re-renders the table from the stored dataset,
in both implementation variants. -/
theorem toggle_two_state_rerender (s : PageState) (checked : Bool) (v : Voice) :
    (∀ w : Voice, w = .active ∨ w = .passive)
    ∧ (App.onToggleChange s checked).ctrlActive
        = decide ((App.onToggleChange s checked).voice = .active)
    ∧ (App.onToggleChange s checked).ctrlPassive
        = decide ((App.onToggleChange s checked).voice = .passive)
    ∧ (∀ d, s.data = some d →
        (App.onToggleChange s checked).tbodyRows
          = App.render d (App.onToggleChange s checked).voice)
    ∧ (Variant.onVoiceClick s v).ctrlActive
        = decide ((Variant.onVoiceClick s v).voice = .active)
    ∧ (Variant.onVoiceClick s v).ctrlPassive
        = decide ((Variant.onVoiceClick s v).voice = .passive)
    ∧ (∀ d, s.data = some d →
        (Variant.onVoiceClick s v).tbodyRows
          = Variant.render d (Variant.onVoiceClick s v).voice) := by
  refine ⟨fun w => match w with
    | .active => Or.inl rfl
    | .passive => Or.inr rfl, ?_, ?_, ?_, ?_, ?_, ?_⟩
  · show (App.doRender _).ctrlActive = decide ((App.doRender _).voice = .active)
    rw [(app_doRender_fields _).2.1, (app_doRender_fields _).1]
    cases checked <;> rfl
  · show (App.doRender _).ctrlPassive = decide ((App.doRender _).voice = .passive)
    rw [(app_doRender_fields _).2.2, (app_doRender_fields _).1]
    cases checked <;> rfl
  · intro d hd
    show (App.doRender _).tbodyRows = App.render d (App.doRender _).voice
    rw [(app_doRender_fields _).1]
    exact app_doRender_rows_of_some _ d hd
  · show (Variant.doRender _).ctrlActive = decide ((Variant.doRender _).voice = .active)
    rw [(variant_doRender_fields _).2.1, (variant_doRender_fields _).1]
  · show (Variant.doRender _).ctrlPassive = decide ((Variant.doRender _).voice = .passive)
    rw [(variant_doRender_fields _).2.2, (variant_doRender_fields _).1]
  · intro d hd
    show (Variant.doRender _).tbodyRows = Variant.render d (Variant.doRender _).voice
    rw [(variant_doRender_fields _).1]
    exact variant_doRender_rows_of_some _ d hd

/-- Witness for C6: after toggling to passive on a loaded page, the rows
are a fresh passive-voice render. -/
theorem toggle_two_state_rerender_witness :
    ({ initState with data := some sampleDataset } : PageState).data = some sampleDataset
    ∧ (App.onToggleChange { initState with data := some sampleDataset } true).tbodyRows
        = App.render sampleDataset
            (App.onToggleChange { initState with data := some sampleDataset } true).voice :=
  ⟨rfl, (toggle_two_state_rerender { initState with data := some sampleDataset }
    true Voice.passive).2.2.2.1 sampleDataset rfl⟩

/-- C7: no operation after load mutates the stored dataset: any sequence
of toggle events (in either variant) and any render leaves `state.data`
exactly as stored; render only reads it. -/
theorem dataset_never_mutated (s : PageState) (evs : List App.Event) (vs : List Voice) :
    (evs.foldl App.applyEvent s).data = s.data
    ∧ (vs.foldl Variant.onVoiceClick s).data = s.data
    ∧ (∀ s', (App.doRender s').data = s'.data)
    ∧ (∀ s', (Variant.doRender s').data = s'.data) :=
  ⟨App.foldl_applyEvent_data evs s, Variant.foldl_onVoiceClick_data vs s,
    app_doRender_data, variant_doRender_data⟩

/-- C3: switching the voice changes only the content of the formula
blocks: with those erased, the active and passive renders are identical
(same rows, cells, descriptions, marker chips and placeholders); and a
cell whose structures do not differ between voices renders identically
under either voice. -/
theorem voice_changes_only_formula_content (d : Dataset) :
    ((App.render d .active).map eraseNode = (App.render d .passive).map eraseNode)
    ∧ ((Variant.render d .active).map eraseNode = (Variant.render d .passive).map eraseNode)
    ∧ (∀ a : Aspect, voiceStructures a .active = voiceStructures a .passive →
        ∀ v v' : Voice, renderCellContent (some a) v = renderCellContent (some a) v') := by
  refine ⟨?_, ?_, ?_⟩
  · unfold App.render
    rw [List.map_map, List.map_map]
    exact List.map_congr_left fun t _ => eraseNode_renderRow_app t .active .passive
  · unfold Variant.render
    rw [List.map_map, List.map_map]
    exact List.map_congr_left fun t _ => eraseNode_renderRow_variant t .active .passive
  · intro a hvs v v'
    have h : voiceStructures a v = voiceStructures a v' := by
      cases v <;> cases v' <;> first | rfl | exact hvs | exact hvs.symm
    simp only [renderCellContent]
    rw [h]

/-- Witness for C3: an aspect with identical active and passive
structures renders the same cell for both voices. -/
theorem voice_changes_only_formula_content_witness :
    voiceStructures symAspect .active = voiceStructures symAspect .passive
    ∧ renderCellContent (some symAspect) .active = renderCellContent (some symAspect) .passive :=
  ⟨by decide, (voice_changes_only_formula_content sampleDataset).2.2 symAspect
    (by decide) .active .passive⟩

/-- C8 counterexample: the two implementation variants are not
structurally identical.  On a one-tense dataset the expanded DOM differs:
src/app.js puts `div.time-name` directly in the time `<td>`, part_000
wraps it in an extra `div.cell-content`. -/
theorem variants_not_structurally_identical :
    expandRows (App.render oneTense .active) ≠ expandRows (Variant.render oneTense .active) := by
  intro h
  have hp := congrArg probeClass h
  exact absurd hp (by decide)

/-- C8 (amended): the two variants display the same text everywhere
(including the time cell: the escaped `innerHTML` decodes to the tense
name) and agree exactly on all cells after the time cell. -/
theorem variants_render_equivalent (d : Dataset) (v : Voice) :
    (App.render d v).map nodeText = (Variant.render d v).map nodeText
    ∧ (App.render d v).map cellsAfterTime = (Variant.render d v).map cellsAfterTime := by
  constructor
  · unfold App.render Variant.render
    rw [List.map_map, List.map_map]
    refine List.map_congr_left fun t _ => ?_
    show nodeText (App.renderRow v t) = nodeText (Variant.renderRow v t)
    simp [App.renderRow, Variant.renderRow, nodeText, nodeTextList,
      Variant.renderTimeCell, textOfHtml_timeCellHtml]
  · unfold App.render Variant.render
    rw [List.map_map, List.map_map]
    exact List.map_congr_left fun t _ => rfl

end TimeTenses
